import Mathlib

/-!
Verification of the efes client (chunked upload/download, response
classification) and of the status view (aggregation, per-device usage,
sorting, dead-device filtering), shallowly embedded from the Go sources.

Conventions of the embedding:
* Go `int64` is `Int`; Go integer division (truncation toward zero) is
  `Int.tdiv`.
* Go pointer fields (`*int64`) that signal "not reported" are `Option Int`.
* The HTTP layer is abstracted: a response is its status code (`Nat`); the
  body bytes never influence the control flow under verification, so a read
  of `n` bytes from the input stream is modelled by consuming `n` from a
  remaining-byte counter.
* The client's unbounded `for` loop is given explicit fuel; exhausting the
  fuel yields the outcome `diverge`, so non-termination is observable.
-/

/-- One PATCH chunk request issued by the upload loop: the value of the
`efes-file-offset` header, the number of body bytes, and the optional
`efes-file-length` header. -/
structure ChunkReq where
  offset : Nat
  bodyLen : Nat
  lengthHeader : Option Int
  deriving Repr, DecidableEq

/-- Result of the chunk-write loop `Client.write`: normal return
`(n, nil)`, an error return `(n, err)` after a bad response status, or
fuel exhaustion (the loop did not terminate within the given fuel). -/
inductive WriteOutcome where
  | ok (n : Nat)
  | httpErr (n : Nat) (status : Nat)
  | diverge
  deriving Repr, DecidableEq

/-- The three error classes produced by `checkResponseError`. -/
inductive RespError where
  | serverErr (code : Nat)
  | clientErr (code : Nat)
  | unexpected (code : Nat)
  deriving Repr, DecidableEq

/-- `checkResponseError(resp, statusCode)` from client.go: status ≥ 500 is a
server error, else status ≥ 400 is a client error, else a status different
from the expected one is an unexpected-status error, else nil. -/
def checkResponseError (status expected : Nat) : Option RespError :=
  if 500 ≤ status then some (RespError.serverErr status)
  else if 400 ≤ status then some (RespError.clientErr status)
  else if status ≠ expected then some (RespError.unexpected status)
  else none

/-- The `for` loop of `Client.write`.  Arguments: chunk size, declared total
`size` (−1 when unknown), the server's status for the i-th request, fuel,
the current chunk index `i`, the bytes remaining in the input, and the
read counter `count` (`rc.Count()`).  Each iteration wraps the input in
`io.LimitReader(rc, chunkSize)`, records the offset header before sending,
adds the length header when `size > -1`, sends, checks the response, and
returns `rc.Count()` when `size > -1 && rc.Count() >= size`. -/
def writeLoop (chunkSize : Nat) (size : Int) (status : Nat → Nat) :
    Nat → Nat → Nat → Nat → List ChunkReq × WriteOutcome
  | 0, _, _, _ => ([], WriteOutcome.diverge)
  | fuel + 1, i, remaining, count =>
    let body := min chunkSize remaining
    let req : ChunkReq :=
      ⟨count, body, if size > -1 then some size else none⟩
    let count' := count + body
    match checkResponseError (status i) 200 with
    | some _ => ([req], WriteOutcome.httpErr count' (status i))
    | none =>
      if size > -1 ∧ (count' : Int) ≥ size then
        ([req], WriteOutcome.ok count')
      else
        let rest := writeLoop chunkSize size status fuel (i + 1) (remaining - body) count'
        (req :: rest.1, rest.2)

/-- `Client.write(path, size, r)`: run the chunk loop from index 0, a fresh
read counter, and an input holding `avail` bytes. -/
def clientWrite (chunkSize : Nat) (size : Int) (status : Nat → Nat)
    (fuel avail : Nat) : List ChunkReq × WriteOutcome :=
  writeLoop chunkSize size status fuel 0 avail 0

/-- The `create-close` request: the size reported to the tracker and the
file/device identifiers from the reservation. -/
structure CommitReq where
  size : Nat
  fid : Int
  devid : Int
  deriving Repr, DecidableEq

/-- `Client.Write` after a successful `createOpen`: run the chunk loop; on
error return it (no commit), otherwise issue `createClose(key, n, fid,
devid)` with `n` the loop's returned byte count. -/
def clientWriteOp (chunkSize : Nat) (size : Int) (status : Nat → Nat)
    (fuel avail : Nat) (fid devid : Int) :
    List ChunkReq × Option CommitReq × WriteOutcome :=
  let res := clientWrite chunkSize size status fuel avail
  match res.2 with
  | WriteOutcome.ok n => (res.1, some ⟨n, fid, devid⟩, res.2)
  | out => (res.1, none, out)

/-- Total body bytes carried by a request trace. -/
def sumBody : List ChunkReq → Nat
  | [] => 0
  | r :: rs => r.bodyLen + sumBody rs

/-- A trace is chained from `c` when each request's offset header equals the
bytes cumulatively sent before it, starting from `c`. -/
def chainedFrom : Nat → List ChunkReq → Bool
  | _, [] => true
  | c, r :: rs => (r.offset == c) && chainedFrom (c + r.bodyLen) rs

/-- A device record as returned by `get-devices` and consumed by the status
code: `Devid`, `Hostid`, `Status`, the `*int64` capacity fields (absent =
not reported), `IoUtilization`, and the unix `UpdatedAt` timestamp. -/
structure Device where
  Devid : Int
  Hostid : Int
  Status : String
  BytesTotal : Option Int
  BytesUsed : Option Int
  BytesFree : Option Int
  IoUtilization : Option Int
  UpdatedAt : Int
  deriving Repr, DecidableEq

/-- A host record as returned by `get-hosts`. -/
structure Host where
  Hostid : Int
  Hostname : String
  Status : String
  deriving Repr, DecidableEq

/-- `deviceStatus`: a device joined with its host's name and status.  The Go
struct embeds `Device`, promoting its fields; the promoted fields are the
accessor definitions below. -/
structure DeviceStatus where
  device : Device
  Hostname : String
  HostStatus : String
  UpdatedAt : Int
  deriving Repr, DecidableEq

def DeviceStatus.Devid (d : DeviceStatus) : Int := d.device.Devid

def DeviceStatus.Status (d : DeviceStatus) : String := d.device.Status

def DeviceStatus.BytesTotal (d : DeviceStatus) : Option Int := d.device.BytesTotal

def DeviceStatus.BytesUsed (d : DeviceStatus) : Option Int := d.device.BytesUsed

def DeviceStatus.BytesFree (d : DeviceStatus) : Option Int := d.device.BytesFree

/-- `deviceStatus.Use()`: empty string when either byte count is absent,
otherwise `(*BytesUsed * 100) / *BytesTotal` with Go's truncating `int64`
division, rendered in decimal. -/
def DeviceStatus.Use (d : DeviceStatus) : String :=
  match d.BytesUsed, d.BytesTotal with
  | some u, some t => toString ((u * 100).tdiv t)
  | _, _ => ""

/-- The `totalUsed` accumulation loop of `efesStatus.Print`: add
`*BytesUsed` when the field is present, skip the device otherwise. -/
def sumUsed : List DeviceStatus → Int
  | [] => 0
  | d :: ds =>
    match d.BytesUsed with
    | some u => u + sumUsed ds
    | none => sumUsed ds

/-- The `totalSize` accumulation loop of `efesStatus.Print`. -/
def sumTotal : List DeviceStatus → Int
  | [] => 0
  | d :: ds =>
    match d.BytesTotal with
    | some t => t + sumTotal ds
    | none => sumTotal ds

/-- The footer aggregates of `efesStatus.Print`, before the GB conversion:
`(totalUsed, totalSize, totalFree, totalUse)` where `totalFree = totalSize -
totalUsed` and `totalUse` is `0` when `totalSize == 0` and `(100 *
totalUsed) / totalSize` (truncating division) otherwise. -/
def printTotals (ds : List DeviceStatus) : Int × Int × Int × Int :=
  let totalUsed := sumUsed ds
  let totalSize := sumTotal ds
  let totalFree := totalSize - totalUsed
  let totalUse : Int := if totalSize = 0 then 0 else (100 * totalUsed).tdiv totalSize
  (totalUsed, totalSize, totalFree, totalUse)

/-- The `hostsByID` map of `Client.Status`: built by inserting each host
keyed on `Hostid`, a later record overwriting an earlier one. -/
def hostsByID (hosts : List Host) (hid : Int) : Option Host :=
  hosts.foldl (fun acc h => if h.Hostid = hid then some h else acc) none

/-- The per-device body of the `Client.Status` loop: look the owning host up
in `hostsByID`, defaulting name and status to the empty string. -/
def mkDeviceStatus (hosts : List Host) (d : Device) : DeviceStatus :=
  match hostsByID hosts d.Hostid with
  | some h => ⟨d, h.Hostname, h.Status, d.UpdatedAt⟩
  | none => ⟨d, "", "", d.UpdatedAt⟩

/-- The row-building loop of `Client.Status`: skip devices whose status is
"dead" (`continue`), join the rest with their host records in order. -/
def statusRows (devices : List Device) (hosts : List Host) : List DeviceStatus :=
  (devices.filter (fun d => d.Status != "dead")).map (mkDeviceStatus hosts)

/-- Modelled from the spec: the comparator types `byHostname`, `byDevID`,
`bySize`, `byUsed`, `byFree` (sort.go) are not among the provided sources.
Per §4.3 sorting is by the named key; for the byte-count keys the key is an
optional value, and absent values are ordered before present ones. -/
def optIntLe (a b : Option Int) : Prop :=
  match a, b with
  | none, _ => True
  | some _, none => False
  | some x, some y => x ≤ y

instance : DecidableRel optIntLe := fun a b =>
  match a, b with
  | none, _ => Decidable.isTrue trivial
  | some _, none => Decidable.isFalse (fun h => h)
  | some x, some y => inferInstanceAs (Decidable (x ≤ y))

/-- Modelled from the spec: order of `byHostname`. -/
def hostnameLe (a b : DeviceStatus) : Prop := a.Hostname ≤ b.Hostname

/-- Modelled from the spec: order of `byDevID`. -/
def devidLe (a b : DeviceStatus) : Prop := a.Devid ≤ b.Devid

/-- Modelled from the spec: order of `bySize`. -/
def sizeLe (a b : DeviceStatus) : Prop := optIntLe a.BytesTotal b.BytesTotal

/-- Modelled from the spec: order of `byUsed`. -/
def usedLe (a b : DeviceStatus) : Prop := optIntLe a.BytesUsed b.BytesUsed

/-- Modelled from the spec: order of `byFree`. -/
def freeLe (a b : DeviceStatus) : Prop := optIntLe a.BytesFree b.BytesFree

instance : DecidableRel hostnameLe := fun a b =>
  inferInstanceAs (Decidable (a.Hostname ≤ b.Hostname))

instance : DecidableRel devidLe := fun a b =>
  inferInstanceAs (Decidable (a.Devid ≤ b.Devid))

instance : DecidableRel sizeLe := fun a b =>
  inferInstanceAs (Decidable (optIntLe a.BytesTotal b.BytesTotal))

instance : DecidableRel usedLe := fun a b =>
  inferInstanceAs (Decidable (optIntLe a.BytesUsed b.BytesUsed))

instance : DecidableRel freeLe := fun a b =>
  inferInstanceAs (Decidable (optIntLe a.BytesFree b.BytesFree))

instance : IsTotal DeviceStatus hostnameLe :=
  ⟨fun a b => le_total a.Hostname b.Hostname⟩

instance : IsTrans DeviceStatus hostnameLe :=
  ⟨fun _ _ _ h1 h2 => le_trans h1 h2⟩

instance : IsTotal DeviceStatus devidLe :=
  ⟨fun a b => le_total a.Devid b.Devid⟩

instance : IsTrans DeviceStatus devidLe :=
  ⟨fun _ _ _ h1 h2 => le_trans h1 h2⟩

instance : IsTotal DeviceStatus sizeLe := by
  constructor
  intro a b
  unfold sizeLe
  cases a.BytesTotal <;> cases b.BytesTotal <;> simp [optIntLe] <;> omega

instance : IsTrans DeviceStatus sizeLe := by
  constructor
  intro a b c
  unfold sizeLe
  cases a.BytesTotal <;> cases b.BytesTotal <;> cases c.BytesTotal <;>
    simp [optIntLe] <;> omega

instance : IsTotal DeviceStatus usedLe := by
  constructor
  intro a b
  unfold usedLe
  cases a.BytesUsed <;> cases b.BytesUsed <;> simp [optIntLe] <;> omega

instance : IsTrans DeviceStatus usedLe := by
  constructor
  intro a b c
  unfold usedLe
  cases a.BytesUsed <;> cases b.BytesUsed <;> cases c.BytesUsed <;>
    simp [optIntLe] <;> omega

instance : IsTotal DeviceStatus freeLe := by
  constructor
  intro a b
  unfold freeLe
  cases a.BytesFree <;> cases b.BytesFree <;> simp [optIntLe] <;> omega

instance : IsTrans DeviceStatus freeLe := by
  constructor
  intro a b c
  unfold freeLe
  cases a.BytesFree <;> cases b.BytesFree <;> cases c.BytesFree <;>
    simp [optIntLe] <;> omega

/-- The `switch sortBy` of `Client.Status`: the five recognised keys sort the
rows (Go's `sort.Sort` guarantees a sorted permutation; it is modelled as
insertion sort on the comparator); any other key is only logged as a
warning and the rows are left in insertion order. -/
def sortStatus (sortKey : String) (ds : List DeviceStatus) : List DeviceStatus :=
  if sortKey = "host" then List.insertionSort hostnameLe ds
  else if sortKey = "device" then List.insertionSort devidLe ds
  else if sortKey = "size" then List.insertionSort sizeLe ds
  else if sortKey = "used" then List.insertionSort usedLe ds
  else if sortKey = "free" then List.insertionSort freeLe ds
  else ds

/-- `Client.Status(sortBy)`: on a failed `get-devices` or `get-hosts`
request the error is returned; otherwise the joined, dead-filtered rows are
built and the sort dispatched on the key. -/
def clientStatus (devicesResp : Except RespError (List Device))
    (hostsResp : Except RespError (List Host)) (sortKey : String) :
    Except RespError (List DeviceStatus) :=
  match devicesResp with
  | Except.error e => Except.error e
  | Except.ok devices =>
    match hostsResp with
    | Except.error e => Except.error e
    | Except.ok hosts => Except.ok (sortStatus sortKey (statusRows devices hosts))

/-- Observable filesystem effects of `Client.Read`: the only one under
verification is the `os.Create(path)` call, which creates (truncating if it
exists) the destination file. -/
inductive ReadEvent where
  | created (dest : String)
  deriving Repr, DecidableEq

/-- The distinct error returns of `Client.Read`. -/
inductive ReadError where
  | tracker (e : RespError)
  | noPath
  | transport
  | status (e : RespError)
  | createFail
  | copyFail
  | closeFail
  deriving Repr, DecidableEq

/-- `Client.Read(key, path)`: resolve the key via `getPaths`; error or an
empty path list aborts; `http.Get` on the first path (a `none` fetch status
is a transport error) is checked against 200; only then is the destination
opened — stdout for "-", `os.Create(path)` otherwise — and the body copied
into it.  `fetchStatus` is the fetch's status code, `createOk`, `copyOk`
and `closeOk` whether `os.Create`, `io.Copy` and `f.Close()` succeed. -/
def clientRead (pathsResp : Except RespError (List String))
    (fetchStatus : Option Nat) (createOk copyOk closeOk : Bool)
    (dest : String) : List ReadEvent × Option ReadError :=
  match pathsResp with
  | Except.error e => ([], some (ReadError.tracker e))
  | Except.ok paths =>
    if paths.isEmpty then ([], some ReadError.noPath)
    else
      match fetchStatus with
      | none => ([], some ReadError.transport)
      | some st =>
        match checkResponseError st 200 with
        | some e => ([], some (ReadError.status e))
        | none =>
          if dest = "-" then
            ([], if copyOk then (if closeOk then none else some ReadError.closeFail)
                 else some ReadError.copyFail)
          else if createOk then
            ([ReadEvent.created dest],
             if copyOk then (if closeOk then none else some ReadError.closeFail)
             else some ReadError.copyFail)
          else ([], some ReadError.createFail)

/-- The resolution step succeeded with at least one path. -/
def pathsNonEmpty (pathsResp : Except RespError (List String)) : Bool :=
  match pathsResp with
  | Except.ok paths => !paths.isEmpty
  | Except.error _ => false

/-- The fetch reached the device and its status passed the 200 check. -/
def fetchPassed (fetchStatus : Option Nat) : Bool :=
  match fetchStatus with
  | some st => checkResponseError st 200 == none
  | none => false

/-- Fixture: a live device with `used = 333`, `total = 1000` (§8 scenario). -/
def dev333 : Device := ⟨1, 1, "alive", some 1000, some 333, some 667, some 0, 0⟩

/-- Fixture: `dev333` joined with its host. -/
def d333 : DeviceStatus := ⟨dev333, "h1", "alive", 0⟩

/-- Fixture: a live device that has not reported any capacity yet. -/
def devBlank : Device := ⟨2, 1, "alive", none, none, none, none, 0⟩

/-- Fixture: `devBlank` joined with its host. -/
def dBlank : DeviceStatus := ⟨devBlank, "h1", "alive", 0⟩

/-- Fixture: a dead device that still reports capacity. -/
def devDead : Device := ⟨3, 2, "dead", some 500, some 400, some 100, some 0, 0⟩

/-- Fixture: a host record. -/
def host1 : Host := ⟨1, "h1", "alive"⟩

/-- Fixture: a second host record. -/
def host2 : Host := ⟨2, "h2", "alive"⟩

lemma writeLoop_known (chunkSize : Nat) (hchunk : 0 < chunkSize) :
    ∀ (fuel i remaining count : Nat) (size : Int),
      size = (count : Int) + remaining → remaining < fuel →
      ∃ tr,
        writeLoop chunkSize size (fun _ => 200) fuel i remaining count
            = (tr, WriteOutcome.ok (count + remaining))
          ∧ sumBody tr = remaining
          ∧ (0 < remaining → ∀ r ∈ tr, 0 < r.bodyLen)
          ∧ (remaining = 0 → tr = [⟨count, 0, some size⟩]) := by
  intro fuel
  induction fuel with
  | zero => intro i remaining count size hsz h; exact absurd h (Nat.not_lt_zero _)
  | succ fuel ih =>
    intro i remaining count size hsz h
    have hc : checkResponseError 200 200 = none := rfl
    have hpos : size > -1 := by omega
    by_cases hle : remaining ≤ chunkSize
    · have hmin : min chunkSize remaining = remaining := by omega
      have hcond : size > -1 ∧ ((count + min chunkSize remaining : Nat) : Int) ≥ size := by
        refine ⟨hpos, ?_⟩
        rw [hmin]; push_cast; omega
      refine ⟨[⟨count, min chunkSize remaining, some size⟩], ?_, ?_, ?_, ?_⟩
      · simp only [writeLoop, hc, if_pos hpos, hmin]
        have hcond' : size > -1 ∧ ((count + remaining : Nat) : Int) ≥ size :=
          ⟨hpos, by push_cast; omega⟩
        rw [if_pos hcond']
      · simp [sumBody, hmin]
      · intro hrem r hr
        simp at hr
        subst hr
        simpa [hmin] using hrem
      · intro hrem
        simp [hmin, hrem]
    · push_neg at hle
      have hmin : min chunkSize remaining = chunkSize := by omega
      have hcond : ¬(size > -1 ∧ ((count + min chunkSize remaining : Nat) : Int) ≥ size) := by
        rintro ⟨-, hge⟩
        rw [hmin] at hge
        push_cast at hge
        omega
      obtain ⟨tr, htr, hsum, hbody, -⟩ :=
        ih (i + 1) (remaining - chunkSize) (count + chunkSize) size (by push_cast; omega) (by omega)
      refine ⟨⟨count, min chunkSize remaining, some size⟩ :: tr, ?_, ?_, ?_, ?_⟩
      · simp only [writeLoop, hc, if_pos hpos, hmin]
        have hcond' : ¬(size > -1 ∧ ((count + chunkSize : Nat) : Int) ≥ size) := by
          rintro ⟨-, hge⟩
          push_cast at hge
          omega
        rw [if_neg hcond', htr]
        have : count + chunkSize + (remaining - chunkSize) = count + remaining := by omega
        rw [this]
      · simp [sumBody, hmin]; omega
      · intro _ r hr
        simp at hr
        rcases hr with hr | hr
        · subst hr; simpa [hmin] using hchunk
        · exact hbody (by omega) r hr
      · intro hrem; omega

lemma writeLoop_unknown_diverge (chunkSize : Nat) :
    ∀ (fuel i remaining count : Nat),
      (writeLoop chunkSize (-1) (fun _ => 200) fuel i remaining count).2
        = WriteOutcome.diverge := by
  intro fuel
  induction fuel with
  | zero => intro i remaining count; rfl
  | succ fuel ih =>
    intro i remaining count
    have hc : checkResponseError 200 200 = none := rfl
    have hcond : ¬((-1 : Int) > -1 ∧ ((count + min chunkSize remaining : Nat) : Int) ≥ -1) := by
      rintro ⟨hlt, -⟩
      exact lt_irrefl _ hlt
    simp only [writeLoop, hc, if_neg hcond]
    exact ih (i + 1) (remaining - min chunkSize remaining) (count + min chunkSize remaining)

lemma writeLoop_trace_props (chunkSize : Nat) (size : Int) (st : Nat → Nat) :
    ∀ (fuel i remaining count : Nat),
      chainedFrom count (writeLoop chunkSize size st fuel i remaining count).1 = true
      ∧ ((writeLoop chunkSize size st fuel i remaining count).1.all fun r =>
            r.lengthHeader == (if size > -1 then some size else none)) = true := by
  intro fuel
  induction fuel with
  | zero => intro i remaining count; exact ⟨rfl, rfl⟩
  | succ fuel ih =>
    intro i remaining count
    cases hck : checkResponseError (st i) 200 with
    | some e =>
      constructor
      · simp only [writeLoop, hck]
        simp [chainedFrom]
      · simp only [writeLoop, hck]
        simp
    | none =>
      by_cases hcond : size > -1 ∧ ((count + min chunkSize remaining : Nat) : Int) ≥ size
      · constructor
        · simp only [writeLoop, hck]
          rw [if_pos hcond]
          simp [chainedFrom]
        · simp only [writeLoop, hck]
          rw [if_pos hcond]
          simp
      · obtain ⟨ih1, ih2⟩ := ih (i + 1) (remaining - min chunkSize remaining)
          (count + min chunkSize remaining)
        constructor
        · simp only [writeLoop, hck]
          rw [if_neg hcond]
          simp [chainedFrom, ih1]
        · simp only [writeLoop, hck]
          rw [if_neg hcond]
          simp only [List.all_cons, Bool.and_eq_true]
          exact ⟨by simp, ih2⟩

lemma writeLoop_ok_count (chunkSize : Nat) (size : Int) (st : Nat → Nat) :
    ∀ (fuel i remaining count n : Nat),
      (writeLoop chunkSize size st fuel i remaining count).2 = WriteOutcome.ok n →
      n = count + sumBody (writeLoop chunkSize size st fuel i remaining count).1 := by
  intro fuel
  induction fuel with
  | zero => intro i remaining count n h; exact absurd h (by simp [writeLoop])
  | succ fuel ih =>
    intro i remaining count n h
    cases hck : checkResponseError (st i) 200 with
    | some e =>
      simp only [writeLoop, hck] at h
      exact absurd h (by simp)
    | none =>
      by_cases hcond : size > -1 ∧ ((count + min chunkSize remaining : Nat) : Int) ≥ size
      · simp only [writeLoop, hck] at h ⊢
        rw [if_pos hcond] at h ⊢
        simp at h
        simp [sumBody]
        omega
      · simp only [writeLoop, hck] at h ⊢
        rw [if_neg hcond] at h ⊢
        simp at h
        have := ih (i + 1) (remaining - min chunkSize remaining)
          (count + min chunkSize remaining) n h
        simp [sumBody]
        omega

lemma sumUsed_eq_filterMap (ds : List DeviceStatus) :
    sumUsed ds = (ds.filterMap DeviceStatus.BytesUsed).sum := by
  induction ds with
  | nil => rfl
  | cons d ds ih =>
    cases h : d.BytesUsed with
    | none => simp [sumUsed, h, List.filterMap_cons, ih]
    | some u => simp [sumUsed, h, List.filterMap_cons, ih]

lemma sumTotal_eq_filterMap (ds : List DeviceStatus) :
    sumTotal ds = (ds.filterMap DeviceStatus.BytesTotal).sum := by
  induction ds with
  | nil => rfl
  | cons d ds ih =>
    cases h : d.BytesTotal with
    | none => simp [sumTotal, h, List.filterMap_cons, ih]
    | some t => simp [sumTotal, h, List.filterMap_cons, ih]

lemma sumUsed_nonneg (ds : List DeviceStatus)
    (h : ∀ d ∈ ds, 0 ≤ d.BytesUsed.getD 0) : 0 ≤ sumUsed ds := by
  induction ds with
  | nil => simp [sumUsed]
  | cons d ds ih =>
    have hd := h d (List.mem_cons_self d ds)
    have hds := ih fun x hx => h x (List.mem_cons_of_mem _ hx)
    cases hh : d.BytesUsed with
    | none => simpa [sumUsed, hh] using hds
    | some u =>
      rw [hh] at hd
      simp at hd
      simp only [sumUsed, hh]
      omega

lemma sumTotal_nonneg (ds : List DeviceStatus)
    (h : ∀ d ∈ ds, 0 ≤ d.BytesTotal.getD 0) : 0 ≤ sumTotal ds := by
  induction ds with
  | nil => simp [sumTotal]
  | cons d ds ih =>
    have hd := h d (List.mem_cons_self d ds)
    have hds := ih fun x hx => h x (List.mem_cons_of_mem _ hx)
    cases hh : d.BytesTotal with
    | none => simpa [sumTotal, hh] using hds
    | some t =>
      rw [hh] at hd
      simp at hd
      simp only [sumTotal, hh]
      omega

lemma sortStatus_perm (key : String) (ds : List DeviceStatus) :
    (sortStatus key ds).Perm ds := by
  unfold sortStatus
  split_ifs <;> first | exact List.perm_insertionSort _ _ | exact List.Perm.refl _

lemma sumUsed_perm {l1 l2 : List DeviceStatus} (h : l1.Perm l2) :
    sumUsed l1 = sumUsed l2 := by
  rw [sumUsed_eq_filterMap, sumUsed_eq_filterMap]
  exact (h.filterMap _).sum_eq

lemma sumTotal_perm {l1 l2 : List DeviceStatus} (h : l1.Perm l2) :
    sumTotal l1 = sumTotal l2 := by
  rw [sumTotal_eq_filterMap, sumTotal_eq_filterMap]
  exact (h.filterMap _).sum_eq

lemma mkDeviceStatus_status (hosts : List Host) (d : Device) :
    (mkDeviceStatus hosts d).Status = d.Status := by
  unfold mkDeviceStatus DeviceStatus.Status
  cases hostsByID hosts d.Hostid <;> rfl

/-- C1, counterexample: with declared size `N = 0` the loop still issues
exactly one PATCH request, and its body is empty — the termination check
`rc.Count() >= size` runs only after a chunk has been sent.  This refutes
"for N = 0 no empty chunk request is sent before the session completes"
(the code's comment only promises not to make a further empty request). -/
theorem write_zero_size_sends_empty_chunk :
    clientWrite 1 (0 : Int) (fun _ => 200) 2 0
      = ([⟨0, 0, some 0⟩], WriteOutcome.ok 0) := by decide

/-- C1, amended: for a known declared size `N ≥ 0`, an input of exactly `N`
bytes, a positive chunk size and enough fuel, the loop stops exactly when
the cumulative bytes sent equal `N` (outcome `ok N`, trace carrying `N`
bytes in total); for `N ≥ 1` no issued request has an empty body, while for
`N = 0` exactly one PATCH request with an empty body is sent before the
session completes. -/
theorem write_known_size_stops_at_declared (chunkSize n fuel : Nat)
    (hchunk : 0 < chunkSize) (hfuel : n < fuel) :
    (clientWrite chunkSize (n : Int) (fun _ => 200) fuel n).2 = WriteOutcome.ok n
    ∧ sumBody (clientWrite chunkSize (n : Int) (fun _ => 200) fuel n).1 = n
    ∧ (0 < n → ∀ r ∈ (clientWrite chunkSize (n : Int) (fun _ => 200) fuel n).1,
        0 < r.bodyLen)
    ∧ (n = 0 → (clientWrite chunkSize (n : Int) (fun _ => 200) fuel n).1
        = [⟨0, 0, some 0⟩]) := by
  obtain ⟨tr, htr, hsum, hbody, hzero⟩ :=
    writeLoop_known chunkSize hchunk fuel 0 n 0 (n : Int) (by push_cast; omega) hfuel
  unfold clientWrite
  rw [htr]
  refine ⟨by simp, by simpa using hsum, ?_, ?_⟩
  · intro hn r hr
    exact hbody hn r (by simpa using hr)
  · intro hn
    subst hn
    simpa using hzero rfl

/-- C1 witness: chunk size 2, declared size 3, input of 3 bytes: the loop
returns `ok 3`. -/
theorem write_known_size_stops_witness :
    (clientWrite 2 (3 : Nat) (fun _ => 200) 4 3).2 = WriteOutcome.ok 3 :=
  (write_known_size_stops_at_declared 2 3 4 (by decide) (by decide)).1

/-- C2, code bug: when the total size is unknown (`size = -1`, the `Write`
path for the stdin source), the loop's only normal exit is guarded by
`size > -1`, so even with every chunk acknowledged with status 200 the loop
never completes the session, whatever the fuel, chunk size and input
length: once the input is exhausted it keeps issuing empty PATCH requests.
The spec's short-read termination does not exist in this code. -/
theorem write_unknown_size_never_completes (chunkSize fuel avail : Nat) :
    (clientWrite chunkSize (-1) (fun _ => 200) fuel avail).2
      = WriteOutcome.diverge := by
  unfold clientWrite
  exact writeLoop_unknown_diverge chunkSize fuel 0 avail 0

/-- C3, counterexample: at status 404 with expected status 404 the function
returns a client-fault error, not nil — refuting "nil exactly when the
status equals the expected status" as quantified over every expected
status. -/
theorem checkResponseError_selfmatch_not_nil :
    checkResponseError 404 404 ≠ none := by decide

/-- C3, amended: provided the expected status is below 400 (every call site
passes 200): a server-fault error exactly when status ≥ 500, a client-fault
error exactly when 400 ≤ status < 500, an unexpected-status error exactly
when status < 400 and differs from the expected one, and nil exactly when
the status equals the expected one. -/
theorem checkResponseError_classification (status expected : Nat)
    (hexp : expected < 400) :
    ((∃ c, checkResponseError status expected = some (RespError.serverErr c))
        ↔ 500 ≤ status)
    ∧ ((∃ c, checkResponseError status expected = some (RespError.clientErr c))
        ↔ 400 ≤ status ∧ status < 500)
    ∧ ((∃ c, checkResponseError status expected = some (RespError.unexpected c))
        ↔ status < 400 ∧ status ≠ expected)
    ∧ (checkResponseError status expected = none ↔ status = expected) := by
  unfold checkResponseError
  split_ifs with h5 h4 hne <;> refine ⟨?_, ?_, ?_, ?_⟩ <;> simp <;> omega

/-- C3 witness: the classification at the call-site expectation 200. -/
theorem checkResponseError_classification_witness :
    checkResponseError 200 200 = none :=
  (checkResponseError_classification 200 200 (by decide)).2.2.2.mpr rfl

/-- C4: the Print footer sums per-device byte counts over exactly the
devices whose field is present (an absent field contributes nothing), and
the cluster usage percentage is 0 when the capacity sum is 0 and otherwise
`floor(100 * sum(used) / sum(total))` computed from the sums (not an
average of per-device percentages). -/
theorem print_totals_spec (ds : List DeviceStatus)
    (hU : ∀ d ∈ ds, 0 ≤ d.BytesUsed.getD 0)
    (hT : ∀ d ∈ ds, 0 ≤ d.BytesTotal.getD 0) :
    (printTotals ds).1 = (ds.filterMap DeviceStatus.BytesUsed).sum
    ∧ (printTotals ds).2.1 = (ds.filterMap DeviceStatus.BytesTotal).sum
    ∧ (sumTotal ds = 0 → (printTotals ds).2.2.2 = 0)
    ∧ (sumTotal ds ≠ 0 →
        (printTotals ds).2.2.2 = Int.fdiv (100 * sumUsed ds) (sumTotal ds)) := by
  refine ⟨sumUsed_eq_filterMap ds, sumTotal_eq_filterMap ds, ?_, ?_⟩
  · intro h
    simp [printTotals, h]
  · intro h
    have hu := sumUsed_nonneg ds hU
    have ht := sumTotal_nonneg ds hT
    simp only [printTotals]
    rw [if_neg h, Int.tdiv_eq_ediv (by positivity) ht, Int.fdiv_eq_ediv _ ht]

/-- C4 witness: one reporting device and one silent device; the silent one
contributes nothing and the percentage is the floor of the quotient of the
sums. -/
theorem print_totals_witness : (printTotals [d333, dBlank]).2.2.2 = 33 := by
  have h := (print_totals_spec [d333, dBlank] (by decide) (by decide)).2.2.2
    (by decide)
  rw [h]
  decide

/-- C5: when both byte counts are present, nonnegative, `used ≤ total` and
`total > 0`, the rendered usage is the decimal string of the truncation of
`(used * 100) / total`, a value in [0, 100]; when either count is absent
the usage renders as the empty string, never as zero. -/
theorem deviceStatus_use_spec (d : DeviceStatus) :
    (∀ u t : Int, d.BytesUsed = some u → d.BytesTotal = some t →
        0 ≤ u → u ≤ t → 0 < t →
        d.Use = toString ((u * 100).tdiv t)
        ∧ 0 ≤ (u * 100).tdiv t ∧ (u * 100).tdiv t ≤ 100)
    ∧ ((d.BytesUsed = none ∨ d.BytesTotal = none) → d.Use = "") := by
  constructor
  · intro u t hu ht hu0 hut ht0
    have htd : (u * 100).tdiv t = (u * 100) / t :=
      Int.tdiv_eq_ediv (by positivity) (le_of_lt ht0)
    refine ⟨?_, ?_, ?_⟩
    · unfold DeviceStatus.Use
      rw [hu, ht]
    · rw [htd]
      exact Int.ediv_nonneg (by positivity) (le_of_lt ht0)
    · rw [htd]
      have h4 : u * 100 ≤ 100 * t := by nlinarith
      have h5 : (u * 100) / t ≤ (100 * t) / t := Int.ediv_le_ediv ht0 h4
      rwa [Int.mul_ediv_cancel 100 (by omega)] at h5
  · intro h
    unfold DeviceStatus.Use
    rcases h with h | h
    · rw [h]
    · rw [h]
      cases d.BytesUsed <;> rfl

/-- C5 witness: `used = 333`, `total = 1000` renders as "33". -/
theorem deviceStatus_use_witness : DeviceStatus.Use d333 = "33" := by
  have h := (deviceStatus_use_spec d333).1 333 1000 rfl rfl (by decide)
    (by decide) (by decide)
  rw [h.1]
  rfl

/-- C6: the commit (`create-close`) is issued exactly when the chunk loop
returned normally, and it then carries the loop's byte counter — the bytes
actually sent, `sumBody` of the request trace — whatever size was declared
at reservation time; a failed chunk or a non-terminating loop yields no
commit. -/
theorem write_commits_actual_bytes (chunkSize fuel avail : Nat)
    (size fid devid : Int) (st : Nat → Nat) :
    (∀ n : Nat, (clientWrite chunkSize size st fuel avail).2 = WriteOutcome.ok n →
      (clientWriteOp chunkSize size st fuel avail fid devid).2.1
        = some ⟨sumBody (clientWrite chunkSize size st fuel avail).1, fid, devid⟩)
    ∧ (∀ n s : Nat,
        (clientWrite chunkSize size st fuel avail).2 = WriteOutcome.httpErr n s →
        (clientWriteOp chunkSize size st fuel avail fid devid).2.1 = none)
    ∧ ((clientWrite chunkSize size st fuel avail).2 = WriteOutcome.diverge →
        (clientWriteOp chunkSize size st fuel avail fid devid).2.1 = none) := by
  refine ⟨?_, ?_, ?_⟩
  · intro n h
    have hcount : n = 0 + sumBody (clientWrite chunkSize size st fuel avail).1 :=
      writeLoop_ok_count chunkSize size st fuel 0 avail 0 n h
    simp only [clientWriteOp]
    rw [h]
    simp
    omega
  · intro n sc h
    simp only [clientWriteOp]
    rw [h]
  · intro h
    simp only [clientWriteOp]
    rw [h]

/-- C6 witness: a successful 3-byte upload commits with size 3. -/
theorem write_commits_witness :
    (clientWriteOp 2 (3 : Nat) (fun _ => 200) 4 3 5 7).2.1
      = some ⟨3, 5, 7⟩ := by
  have h := (write_commits_actual_bytes 2 4 3 (3 : Nat) 5 7 (fun _ => 200)).1 3
    (by decide)
  exact h.trans (by decide)

/-- C7: in every session trace, each chunk request's `efes-file-offset`
header equals the cumulative bytes already sent before it (the trace is
chained from 0), and the `efes-file-length` header equals the declared
total size exactly when the size is known (`size > -1`) and is absent
otherwise — for any server behaviour and any input. -/
theorem write_chunk_headers (chunkSize fuel avail : Nat) (size : Int)
    (st : Nat → Nat) :
    chainedFrom 0 (clientWrite chunkSize size st fuel avail).1 = true
    ∧ ((clientWrite chunkSize size st fuel avail).1.all fun r =>
        r.lengthHeader == (if size > -1 then some size else none)) = true := by
  unfold clientWrite
  exact writeLoop_trace_props chunkSize size st fuel 0 avail 0

/-- C8: `Status` succeeds for every sort key, returning the joined rows
sorted: a recognised key ("host", "device", "size", "used", "free") yields
a permutation of the rows sorted by that key's order; any other key leaves
the rows exactly in their natural (insertion) order. -/
theorem status_sort_dispatch (devices : List Device) (hosts : List Host)
    (key : String) :
    clientStatus (Except.ok devices) (Except.ok hosts) key
        = Except.ok (sortStatus key (statusRows devices hosts))
    ∧ (sortStatus key (statusRows devices hosts)).Perm (statusRows devices hosts)
    ∧ (key = "host" →
        List.Sorted hostnameLe (sortStatus key (statusRows devices hosts)))
    ∧ (key = "device" →
        List.Sorted devidLe (sortStatus key (statusRows devices hosts)))
    ∧ (key = "size" →
        List.Sorted sizeLe (sortStatus key (statusRows devices hosts)))
    ∧ (key = "used" →
        List.Sorted usedLe (sortStatus key (statusRows devices hosts)))
    ∧ (key = "free" →
        List.Sorted freeLe (sortStatus key (statusRows devices hosts)))
    ∧ (key ≠ "host" → key ≠ "device" → key ≠ "size" → key ≠ "used" →
        key ≠ "free" →
        sortStatus key (statusRows devices hosts) = statusRows devices hosts) := by
  refine ⟨rfl, sortStatus_perm key _, ?_, ?_, ?_, ?_, ?_, ?_⟩
  · intro hk
    subst hk
    unfold sortStatus
    rw [if_pos rfl]
    exact List.sorted_insertionSort _ _
  · intro hk
    subst hk
    unfold sortStatus
    rw [if_neg (by decide), if_pos rfl]
    exact List.sorted_insertionSort _ _
  · intro hk
    subst hk
    unfold sortStatus
    rw [if_neg (by decide), if_neg (by decide), if_pos rfl]
    exact List.sorted_insertionSort _ _
  · intro hk
    subst hk
    unfold sortStatus
    rw [if_neg (by decide), if_neg (by decide), if_neg (by decide), if_pos rfl]
    exact List.sorted_insertionSort _ _
  · intro hk
    subst hk
    unfold sortStatus
    rw [if_neg (by decide), if_neg (by decide), if_neg (by decide),
      if_neg (by decide), if_pos rfl]
    exact List.sorted_insertionSort _ _
  · intro h1 h2 h3 h4 h5
    unfold sortStatus
    rw [if_neg h1, if_neg h2, if_neg h3, if_neg h4, if_neg h5]

/-- C8 witness: an unrecognised sort key still succeeds and leaves the rows
in insertion order. -/
theorem status_sort_witness :
    clientStatus (Except.ok [dev333, devBlank, devDead])
        (Except.ok [host1, host2]) "nope"
      = Except.ok (statusRows [dev333, devBlank, devDead] [host1, host2]) := by
  have h := status_sort_dispatch [dev333, devBlank, devDead] [host1, host2] "nope"
  have hd := h.2.2.2.2.2.2.2 (by decide) (by decide) (by decide) (by decide)
    (by decide)
  rw [h.1, hd]

/-- C9: for any sort key, every row of the constructed status report has a
status different from "dead"; the rows are a permutation of exactly the
non-dead devices joined with their hosts; and the Print sums over the rows
equal the sums over those non-dead devices — a dead device appears in no
row and contributes nothing to the cluster totals. -/
theorem status_excludes_dead_devices (devices : List Device)
    (hosts : List Host) (key : String) :
    ((sortStatus key (statusRows devices hosts)).all
        fun d => d.Status != "dead") = true
    ∧ (sortStatus key (statusRows devices hosts)).Perm
        ((devices.filter fun d => d.Status != "dead").map (mkDeviceStatus hosts))
    ∧ sumUsed (sortStatus key (statusRows devices hosts))
        = sumUsed ((devices.filter fun d => d.Status != "dead").map
            (mkDeviceStatus hosts))
    ∧ sumTotal (sortStatus key (statusRows devices hosts))
        = sumTotal ((devices.filter fun d => d.Status != "dead").map
            (mkDeviceStatus hosts)) := by
  have hperm := sortStatus_perm key (statusRows devices hosts)
  refine ⟨?_, hperm, sumUsed_perm hperm, sumTotal_perm hperm⟩
  rw [List.all_eq_true]
  intro d hd
  have hd' : d ∈ statusRows devices hosts := hperm.mem_iff.mp hd
  unfold statusRows at hd'
  obtain ⟨d0, hd0, rfl⟩ := List.mem_map.mp hd'
  have hf := (List.mem_filter.mp hd0).2
  simpa [mkDeviceStatus_status] using hf

/-- C10: with a destination other than "-", `Read` creates the destination
file exactly when the tracker returned a non-empty path list, the fetch
passed the 200-status check, and the create call itself succeeds; when
resolution fails, yields no paths, or the fetch check fails, no create (and
hence no truncation) happens and an error is returned. -/
theorem read_creates_only_after_checks
    (pathsResp : Except RespError (List String)) (fetchStatus : Option Nat)
    (createOk copyOk closeOk : Bool) (dest : String) (hdest : dest ≠ "-") :
    ((clientRead pathsResp fetchStatus createOk copyOk closeOk dest).1
        = [ReadEvent.created dest]
      ↔ pathsNonEmpty pathsResp = true ∧ fetchPassed fetchStatus = true
        ∧ createOk = true)
    ∧ (pathsNonEmpty pathsResp = false ∨ fetchPassed fetchStatus = false →
        (clientRead pathsResp fetchStatus createOk copyOk closeOk dest).1 = []
        ∧ (clientRead pathsResp fetchStatus createOk copyOk closeOk dest).2
            ≠ none) := by
  rcases pathsResp with e | paths
  · simp [clientRead, pathsNonEmpty]
  · cases hp : paths.isEmpty
    · rcases fetchStatus with _ | st
      · simp [clientRead, pathsNonEmpty, fetchPassed, hp]
      · rcases hck : checkResponseError st 200 with _ | e
        · cases createOk <;>
            simp [clientRead, pathsNonEmpty, fetchPassed, hp, hck, hdest]
        · simp [clientRead, pathsNonEmpty, fetchPassed, hp, hck]
    · simp [clientRead, pathsNonEmpty, hp]

/-- C10 witness: a successful resolve and fetch with a real destination
creates exactly that file. -/
theorem read_creates_witness :
    (clientRead (Except.ok ["p1"]) (some 200) true true true "out.bin").1
      = [ReadEvent.created "out.bin"] := by
  have h := read_creates_only_after_checks (Except.ok ["p1"]) (some 200)
    true true true "out.bin" (by decide)
  exact h.1.mpr ⟨by decide, by decide, rfl⟩
